import Mathlib

/-!
Verification of the J-Quants MCP server gateway
(`src/jquants_free_mcp_server/server.py`) against its specification.

The embedding models, faithfully to the Python source:
* cells of a pandas DataFrame and the per-cell JSON conversion of
  `_convert_df_to_json` (lines 50-75);
* Python slice semantics used by `df.iloc[start_position:start_position+limit]`;
* credential resolution and memoization of `get_client` (lines 13-47);
* the pandas `str.contains(query, case=False, na=False)` regex matching used
  by `search_company` (lines 101-106), via a Brzozowski-derivative matcher for
  the regex fragment the queries can use (literals, `.`, groups, alternation);
* the five tool operations, each taking the upstream call outcome as an
  explicit parameter and returning the JSON envelope, the updated client
  cache, and the keyword arguments of the upstream call it attempted
  (`none` when no upstream call was made).
-/

namespace JQuants

/-- A scalar cell of an upstream DataFrame.  A temporal cell carries its
ISO-8601 rendering (what `Timestamp.isoformat()` returns); `na` stands for
any missing / not-a-number marker (`NaN`, `NaT`, `None`). -/
inductive Cell where
  | timestamp (iso : String)
  | na
  | str (s : String)
  | int (n : Int)
  | bool (b : Bool)
deriving DecidableEq, Repr

/-- A JSON scalar value, as appears in a serialized record. -/
inductive JsonVal where
  | str (s : String)
  | num (n : Int)
  | bool (b : Bool)
  | null
deriving DecidableEq, Repr

/-- One upstream row: an ordered mapping field-name → cell. -/
abbrev Record := List (String × Cell)

/-- An upstream DataFrame: an ordered sequence of rows. -/
abbrev DF := List Record

/-- A serialized record: ordered mapping field-name → JSON scalar. -/
abbrev JRecord := List (String × JsonVal)

/-- The per-cell conversion of `_convert_df_to_json` (server.py lines 67-72):
a `pd.Timestamp` becomes its `isoformat()` string, an `isna` cell becomes
`None`, every other cell is left unchanged by the loop and serialized as its
natural JSON scalar. -/
def convertCell : Cell → JsonVal
  | .timestamp iso => .str iso
  | .na => .null
  | .str s => .str s
  | .int n => .num n
  | .bool b => .bool b

/-- Conversion of one row, mirroring the record loop of
`_convert_df_to_json`. -/
def recordFields (r : Record) : JRecord :=
  r.map (fun kv => (kv.1, convertCell kv.2))

/-- Python slice `xs[start:stop]` on a sequence, with CPython semantics:
negative indices count from the end, all indices are clamped to `[0, len]`,
out-of-range slices are empty and never raise.  This is what
`df.iloc[start:stop]` does on the row axis. -/
def pySlice {α : Type} (xs : List α) (start stop : Int) : List α :=
  let n : Int := xs.length
  let s : Int := if start < 0 then max (n + start) 0 else min start n
  let e : Int := if stop < 0 then max (n + stop) 0 else min stop n
  (xs.take e.toNat).drop s.toNat

/-- The pagination window `df.iloc[start_position:start_position+limit]`
applied by every operation. -/
def paginate {α : Type} (xs : List α) (start limit : Int) : List α :=
  pySlice xs start (start + limit)

/-- Environment-sourced configuration read by `get_client`
(`os.environ.get(..., "")`): each variable defaults to the empty string. -/
structure Env where
  refresh_token : String
  mail_address : String
  password : String
deriving DecidableEq, Repr

/-- A constructed `jquantsapi.Client`: either from a refresh token or from a
mail-address/password pair. -/
inductive Client where
  | fromToken (token : String)
  | fromMail (mail password : String)
deriving DecidableEq, Repr

/-- The error raised / classified by an operation. -/
inductive Err where
  | configError (msg : String)
  | httpError (status : Nat) (msg : String)
  | timeoutError (msg : String)
  | connectionError (msg : String)
  | regexError (msg : String)
  | other (msg : String)
deriving DecidableEq, Repr

/-- `str(e)` of an error. -/
def Err.message : Err → String
  | .configError msg => msg
  | .httpError _ msg => msg
  | .timeoutError msg => msg
  | .connectionError msg => msg
  | .regexError msg => msg
  | .other msg => msg

/-- The `ValueError` message of `get_client` (server.py lines 41-45). -/
def authErrorMessage : String :=
  "Authentication credentials not found. Please set either JQUANTS_REFRESH_TOKEN or both JQUANTS_MAIL_ADDRESS and JQUANTS_PASSWORD environment variables."

/-- `get_client` (server.py lines 13-47) as a transition on the module-level
`_client` cache: returns the cached client when present; otherwise resolves
from the environment with refresh-token priority, caches the new client, and
fails with a `ValueError` (no client constructed) when no credential is
configured.  Python truthiness of a string is non-emptiness. -/
def get_client (env : Env) (cache : Option Client) :
    Except Err Client × Option Client :=
  match cache with
  | some c => (.ok c, some c)
  | none =>
    if env.refresh_token ≠ "" then
      let c := Client.fromToken env.refresh_token
      (.ok c, some c)
    else if env.mail_address ≠ "" ∧ env.password ≠ "" then
      let c := Client.fromMail env.mail_address env.password
      (.ok c, some c)
    else
      (.error (.configError authErrorMessage), none)

/-! ### Regex matching of `pandas.Series.str.contains`

`df['CompanyName'].str.contains(query, case=False, na=False)` (server.py
lines 102-105) compiles `query` with `re.IGNORECASE` (the pandas default is
`regex=True`) and tests `re.search` on each cell; `na=False` maps missing
cells to no-match.  We model the regex fragment of literal characters, `.`,
groups and alternation with a Brzozowski-derivative matcher; patterns using
other metacharacters are outside the model and are rejected by the
translator (`parseRegex` returns `none`, as `re.compile` raises on the
unbalanced-parenthesis inputs the theorems below use). -/

/-- Regex abstract syntax for the modelled fragment. -/
inductive Regex where
  | fail
  | eps
  | ch (c : Char)
  | dot
  | cat (a b : Regex)
  | alt (a b : Regex)
deriving DecidableEq, Repr

/-- Does the regex accept the empty string? -/
def nullable : Regex → Bool
  | .fail => false
  | .eps => true
  | .ch _ => false
  | .dot => false
  | .cat a b => nullable a && nullable b
  | .alt a b => nullable a || nullable b

/-- Brzozowski derivative; a literal character matches case-insensitively,
modelling `re.IGNORECASE`. -/
def deriv : Regex → Char → Regex
  | .fail, _ => .fail
  | .eps, _ => .fail
  | .ch c, d => if c.toLower = d.toLower then .eps else .fail
  | .dot, _ => .eps
  | .cat a b, d =>
    if nullable a then .alt (.cat (deriv a d) b) (deriv b d)
    else .cat (deriv a d) b
  | .alt a b, d => .alt (deriv a d) (deriv b d)

/-- Does the regex match some prefix of the character list? -/
def matchPref : Regex → List Char → Bool
  | r, [] => nullable r
  | r, c :: cs => nullable r || matchPref (deriv r c) cs

/-- `re.search`: does the regex match starting at any position? -/
def research (r : Regex) : List Char → Bool
  | [] => nullable r
  | c :: cs => matchPref r (c :: cs) || research r cs

/-- Metacharacters outside the modelled regex fragment (quantifiers,
classes, anchors, escapes, counted repetitions); a pattern containing one is
not translated. -/
def unsupportedChar (c : Char) : Bool :=
  c = '*' || c = '+' || c = '?' || c = '[' || c = ']' ||
  c = '\\' || c = '^' || c = '$' || c = Char.ofNat 123 || c = Char.ofNat 125

/-- A character the pattern translator treats as a literal. -/
def plainChar (c : Char) : Bool :=
  !unsupportedChar c && c ≠ '(' && c ≠ ')' && c ≠ '|' && c ≠ '.'

/-- Translator mode: alternation level or sequence level. -/
inductive PMode where
  | top
  | seq
deriving DecidableEq, Repr

/-- Fuel-indexed recursive-descent translation of a pattern into `Regex`:
`top` parses `seq ('|' seq)*` up to `)` or end of input, `seq` parses a
sequence of atoms (literal, `.`, group).  Returns the regex and the
unconsumed input, or `none` for a pattern outside the fragment or with
unbalanced parentheses (where `re.compile` raises `re.error`). -/
def parseR : PMode → Nat → List Char → Option (Regex × List Char)
  | _, 0, _ => none
  | .top, Nat.succ f, cs =>
    match parseR .seq f cs with
    | none => none
    | some (r, rest) =>
      match rest with
      | '|' :: rest2 =>
        match parseR .top f rest2 with
        | none => none
        | some (r2, rest3) => some (.alt r r2, rest3)
      | _ => some (r, rest)
  | .seq, Nat.succ f, cs =>
    match cs with
    | [] => some (.eps, [])
    | c :: rest =>
      if c = ')' ∨ c = '|' then some (.eps, cs)
      else if unsupportedChar c then none
      else
        match (if c = '(' then
                 match parseR .top f rest with
                 | some (r, ')' :: rest2) => some (r, rest2)
                 | _ => none
               else if c = '.' then some (Regex.dot, rest)
               else some (Regex.ch c, rest) : Option (Regex × List Char)) with
        | none => none
        | some (r1, rest1) =>
          match parseR .seq f rest1 with
          | none => none
          | some (r2, rest2) => some (.cat r1 r2, rest2)

/-- `re.compile(pattern)` restricted to the modelled fragment: `some` with
the translated regex, or `none` where compilation fails (or the pattern
leaves the fragment). -/
def parseRegex (pattern : String) : Option Regex :=
  match parseR .top (2 * pattern.length + 4) pattern.toList with
  | some (r, []) => some r
  | _ => none

/-- Case-insensitive "is a prefix of" on character lists. -/
def lpre : List Char → List Char → Bool
  | [], _ => true
  | _ :: _, [] => false
  | c :: cs, d :: ds => c.toLower = d.toLower && lpre cs ds

/-- Case-insensitive substring containment: the spec's reading of
"contains `query` as a case-insensitive substring". -/
def substrCI : List Char → List Char → Bool
  | cs, [] => cs.isEmpty
  | cs, d :: ds => lpre cs (d :: ds) || substrCI cs ds

/-- The result envelope built by an operation before `json.dumps`: either
`{key: data_list}` (success) or `{"error": str(e), "status": "error"}`
(failure). -/
inductive Output where
  | success (key : String) (records : List JRecord)
  | failure (error : String) (status : String)
deriving DecidableEq, Repr

/-- The failure envelope every `except` branch builds:
`{"error": str(e), "status": "error"}` (e.g. server.py lines 113-115). -/
def errorResponse (e : Err) : Output :=
  .failure e.message "error"

/-- `_convert_df_to_json` (server.py lines 50-75) at envelope level:
`{key: [converted records]}`. -/
def convert_df_to_json (df : DF) (key : String) : Output :=
  .success key (df.map recordFields)

/-- The JSON tree an operation's string result parses to. -/
inductive Json where
  | str (s : String)
  | num (n : Int)
  | bool (b : Bool)
  | null
  | arr (xs : List Json)
  | obj (fields : List (String × Json))

/-- Lift a scalar into the JSON tree. -/
def JsonVal.toJson : JsonVal → Json
  | .str s => .str s
  | .num n => .num n
  | .bool b => .bool b
  | .null => .null

/-- `json.dumps` of the envelope: the returned string, as a JSON tree
(well-formed by construction). -/
def Output.toJson : Output → Json
  | .success key records =>
    .obj [(key, .arr (records.map (fun r =>
      Json.obj (r.map (fun kv => (kv.1, kv.2.toJson))))))]
  | .failure msg status => .obj [("error", .str msg), ("status", .str status)]

/-- Top-level keys of a JSON object. -/
def Json.topKeys : Json → List String
  | .obj fields => fields.map Prod.fst
  | _ => []

/-- Keyword arguments of an upstream client call. -/
abbrev UpstreamCall := List (String × String)

/-- Result of an operation: the envelope, the updated `_client` cache, and
the upstream call attempted (`none` when the client method was never
invoked). -/
abbrev OpResult := Output × Option Client × Option UpstreamCall

/-- Does the `query` regex match a string cell of the row under field
`name`?  Missing or non-string cells are no-match (`na=False`). -/
def fieldMatches (rx : Regex) (r : Record) (name : String) : Bool :=
  match r.lookup name with
  | some (.str s) => research rx s.toList
  | _ => false

/-- The row mask of server.py lines 102-105: `CompanyName` matches or
`CompanyNameEnglish` matches. -/
def rowMatches (rx : Regex) (r : Record) : Bool :=
  fieldMatches rx r "CompanyName" || fieldMatches rx r "CompanyNameEnglish"

/-- `search_company` (server.py lines 78-115).  `listed` is the outcome of
`client.get_listed_info()`; an invalid pattern raises `re.error` inside the
`try`, after the listing was fetched. -/
def search_company (env : Env) (cache : Option Client)
    (listed : Except Err DF) (query : String)
    (limit start_position : Int) : OpResult :=
  match get_client env cache with
  | (.error e, cache') => (errorResponse e, cache', none)
  | (.ok _, cache') =>
    match listed with
    | .error e => (errorResponse e, cache', some [])
    | .ok df =>
      match parseRegex query with
      | none =>
        (errorResponse (.regexError "missing ), unterminated subpattern"),
         cache', some [])
      | some rx =>
        let filtered := df.filter (rowMatches rx)
        let paginated := paginate filtered start_position limit
        (convert_df_to_json paginated "info", cache', some [])

/-- `get_daily_quotes` (server.py lines 119-161). -/
def get_daily_quotes (env : Env) (cache : Option Client)
    (quotes : Except Err DF) (code from_yyyymmdd to_yyyymmdd : String)
    (limit start_position : Int) : OpResult :=
  match get_client env cache with
  | (.error e, cache') => (errorResponse e, cache', none)
  | (.ok _, cache') =>
    let call : UpstreamCall :=
      [("code", code), ("from_yyyymmdd", from_yyyymmdd),
       ("to_yyyymmdd", to_yyyymmdd)]
    match quotes with
    | .error e => (errorResponse e, cache', some call)
    | .ok df =>
      let paginated := paginate df start_position limit
      (convert_df_to_json paginated "daily_quotes", cache', some call)

/-- The dict comprehension of server.py lines 198-201: drop every field
whose (JSON-parsed) value equals the empty string; `None` and numeric `0`
compare unequal to `""` in Python and are kept. -/
def dropEmptyStrFields (r : JRecord) : JRecord :=
  r.filter (fun kv => kv.2 ≠ JsonVal.str "")

/-- `get_financial_statements` (server.py lines 164-207): paginate, convert,
then remove empty-string-valued fields from every record. -/
def get_financial_statements (env : Env) (cache : Option Client)
    (stmts : Except Err DF) (code : String)
    (limit start_position : Int) : OpResult :=
  match get_client env cache with
  | (.error e, cache') => (errorResponse e, cache', none)
  | (.ok _, cache') =>
    let call : UpstreamCall := [("code", code)]
    match stmts with
    | .error e => (errorResponse e, cache', some call)
    | .ok df =>
      let paginated := paginate df start_position limit
      let records := (paginated.map recordFields).map dropEmptyStrFields
      (Output.success "statements" records, cache', some call)

/-- `get_topix_prices` (server.py lines 210-246): `pagination_key` is
accepted but the upstream call passes only the two date bounds. -/
def get_topix_prices (env : Env) (cache : Option Client)
    (topix : Except Err DF) (from_yyyymmdd to_yyyymmdd pagination_key : String)
    (limit start_position : Int) : OpResult :=
  match get_client env cache with
  | (.error e, cache') => (errorResponse e, cache', none)
  | (.ok _, cache') =>
    let call : UpstreamCall :=
      [("from_yyyymmdd", from_yyyymmdd), ("to_yyyymmdd", to_yyyymmdd)]
    match topix with
    | .error e => (errorResponse e, cache', some call)
    | .ok df =>
      let paginated := paginate df start_position limit
      (convert_df_to_json paginated "topix", cache', some call)

/-- The kwargs dict built by server.py lines 281-287: each of `section`
(named `sec` here, a Lean keyword), `from_yyyymmdd`, `to_yyyymmdd` is added
exactly when non-empty; `pagination_key` is never added. -/
def tradesSpecKwargs (sec from_yyyymmdd to_yyyymmdd : String) :
    UpstreamCall :=
  (if sec ≠ "" then [("section", sec)] else []) ++
  (if from_yyyymmdd ≠ "" then [("from_yyyymmdd", from_yyyymmdd)] else []) ++
  (if to_yyyymmdd ≠ "" then [("to_yyyymmdd", to_yyyymmdd)] else [])

/-- `get_trades_spec` (server.py lines 249-298). -/
def get_trades_spec (env : Env) (cache : Option Client)
    (trades : Except Err DF)
    (sec from_yyyymmdd to_yyyymmdd pagination_key : String)
    (limit start_position : Int) : OpResult :=
  match get_client env cache with
  | (.error e, cache') => (errorResponse e, cache', none)
  | (.ok _, cache') =>
    let call := tradesSpecKwargs sec from_yyyymmdd to_yyyymmdd
    match trades with
    | .error e => (errorResponse e, cache', some call)
    | .ok df =>
      let paginated := paginate df start_position limit
      (convert_df_to_json paginated "trades_spec", cache', some call)

/-! ### Spec-side definitions

These follow the specification's words, for comparison with the definitions
translated from the source. -/

/-- The spec's pagination window: "the contiguous slice
`[start_position, start_position+limit)`" of a sequence. -/
def specSlice {α : Type} (xs : List α) (start limit : Int) : List α :=
  (xs.drop start.toNat).take limit.toNat

/-! ### Pagination lemmas -/

theorem paginate_eq_specSlice {α : Type} (xs : List α) (start limit : Int)
    (hs : 0 ≤ start) (hl : 0 < limit) :
    paginate xs start limit = specSlice xs start limit := by
  simp only [paginate, pySlice, specSlice]
  have h1 : ¬ start < 0 := by omega
  have h2 : ¬ start + limit < 0 := by omega
  simp only [h1, h2, if_false]
  rw [List.drop_take]
  rcases le_or_lt start (xs.length : Int) with hle | hgt
  · have hmin : start ⊓ (xs.length : Int) = start := by omega
    rw [hmin, List.take_eq_take]
    simp only [List.length_drop]
    omega
  · have e1 : List.drop (start ⊓ (xs.length : Int)).toNat xs = [] :=
      List.drop_eq_nil_of_le (by omega)
    have e2 : List.drop start.toNat xs = [] :=
      List.drop_eq_nil_of_le (by omega)
    rw [e1, e2]
    simp

theorem specSlice_length {α : Type} (xs : List α) (start limit : Int)
    (hs : 0 ≤ start) (hl : 0 < limit) :
    ((specSlice xs start limit).length : Int) =
      max 0 (min limit ((xs.length : Int) - start)) := by
  simp only [specSlice, List.length_take, List.length_drop]
  omega

theorem specSlice_beyond {α : Type} (xs : List α) (start limit : Int)
    (h : (xs.length : Int) ≤ start) :
    specSlice xs start limit = [] := by
  simp only [specSlice]
  rw [List.drop_eq_nil_of_le, List.take_nil]
  omega

/-- Literal regex: the translation of a pattern with no metacharacters. -/
def litRegex (cs : List Char) : Regex :=
  cs.foldr (fun c r => Regex.cat (Regex.ch c) r) Regex.eps

/-- Sample listing row: Toyota. -/
def toyotaRecord : Record :=
  [("Code", Cell.str "72030"), ("CompanyName", Cell.str "トヨタ自動車"),
   ("CompanyNameEnglish", Cell.str "Toyota Motor Corp")]

/-- Sample listing row: Sony. -/
def sonyRecord : Record :=
  [("Code", Cell.str "67580"), ("CompanyName", Cell.str "ソニーグループ"),
   ("CompanyNameEnglish", Cell.str "Sony Group Corp")]

/-- A two-row sample listing. -/
def sampleListing : DF := [toyotaRecord, sonyRecord]

/-- C1: for every query kind, after normalization and (for ListedInfo)
filtering, valid pagination arguments (`start_position ≥ 0`, `limit > 0`)
yield exactly the contiguous slice `[start_position, start_position+limit)`
of the record sequence; the record count is
`max 0 (min limit (total − start_position))`, a start beyond the sequence
length yields the empty sequence, and no out-of-range value produces an
error envelope. -/
theorem C1_pagination_window
    (env : Env) (cache : Option Client) (c : Client)
    (hc : (get_client env cache).1 = Except.ok c)
    (df : DF) (query : String) (rx : Regex)
    (hq : parseRegex query = some rx)
    (code fd td pk sec : String)
    (limit start : Int) (hs : 0 ≤ start) (hl : 0 < limit) :
    ((search_company env cache (.ok df) query limit start).1 =
       Output.success "info"
         ((specSlice (df.filter (rowMatches rx)) start limit).map
           recordFields)) ∧
    ((get_daily_quotes env cache (.ok df) code fd td limit start).1 =
       Output.success "daily_quotes"
         ((specSlice df start limit).map recordFields)) ∧
    ((get_financial_statements env cache (.ok df) code limit start).1 =
       Output.success "statements"
         (((specSlice df start limit).map recordFields).map
           dropEmptyStrFields)) ∧
    ((get_topix_prices env cache (.ok df) fd td pk limit start).1 =
       Output.success "topix"
         ((specSlice df start limit).map recordFields)) ∧
    ((get_trades_spec env cache (.ok df) sec fd td pk limit start).1 =
       Output.success "trades_spec"
         ((specSlice df start limit).map recordFields)) ∧
    (∀ seq : DF,
      (((specSlice seq start limit).map recordFields).length : Int) =
        max 0 (min limit ((seq.length : Int) - start)) ∧
      ((seq.length : Int) ≤ start → specSlice seq start limit = [])) := by
  rcases hE : get_client env cache with ⟨r, cache2⟩
  have hr : r = Except.ok c := by rw [hE] at hc; exact hc
  subst hr
  refine ⟨?_, ?_, ?_, ?_, ?_, ?_⟩
  · simp only [search_company, hE, hq, convert_df_to_json,
      paginate_eq_specSlice _ _ _ hs hl]
  · simp only [get_daily_quotes, hE, convert_df_to_json,
      paginate_eq_specSlice _ _ _ hs hl]
  · simp only [get_financial_statements, hE,
      paginate_eq_specSlice _ _ _ hs hl]
  · simp only [get_topix_prices, hE, convert_df_to_json,
      paginate_eq_specSlice _ _ _ hs hl]
  · simp only [get_trades_spec, hE, convert_df_to_json,
      paginate_eq_specSlice _ _ _ hs hl]
  · intro seq
    refine ⟨?_, specSlice_beyond seq start limit⟩
    simp only [List.length_map]
    exact specSlice_length seq start limit hs hl

/-- Witness for C1 at a concrete listing, query and pagination window. -/
theorem C1_pagination_window_witness :
    (search_company ⟨"tok", "", ""⟩ none (.ok sampleListing) "toyota"
        10 0).1 =
      Output.success "info"
        ((specSlice (sampleListing.filter
            (rowMatches (litRegex "toyota".toList))) 0 10).map
          recordFields) :=
  (C1_pagination_window ⟨"tok", "", ""⟩ none (Client.fromToken "tok")
    rfl sampleListing "toyota" (litRegex "toyota".toList)
    (by decide) "72030" "20231001" "20231031" "" "" 10 0
    (by decide) (by decide)).1

/-- C6: credential resolution priority — refresh token first, else the
mail/password pair, else a configuration error with no client constructed —
and memoization: with a cached client every call returns that same client
(for any environment, i.e. without re-resolving), and a successful
resolution stores exactly the returned client in the cache. -/
theorem C6_credential_resolution
    (env : Env) (cache : Option Client) (c : Client) :
    (get_client env (some c) = (Except.ok c, some c)) ∧
    (env.refresh_token ≠ "" →
      get_client env none =
        (Except.ok (Client.fromToken env.refresh_token),
         some (Client.fromToken env.refresh_token))) ∧
    (env.refresh_token = "" → env.mail_address ≠ "" → env.password ≠ "" →
      get_client env none =
        (Except.ok (Client.fromMail env.mail_address env.password),
         some (Client.fromMail env.mail_address env.password))) ∧
    (env.refresh_token = "" →
      (env.mail_address = "" ∨ env.password = "") →
      get_client env none =
        (Except.error (Err.configError authErrorMessage), none)) ∧
    (∀ c2 : Client, (get_client env cache).1 = Except.ok c2 →
      (get_client env cache).2 = some c2) := by
  refine ⟨rfl, ?_, ?_, ?_, ?_⟩
  · intro h
    simp [get_client, h]
  · intro h1 h2 h3
    simp [get_client, h1, h2, h3]
  · intro h1 h2
    rcases h2 with h2 | h2 <;> simp [get_client, h1, h2]
  · intro c2 h
    cases cache with
    | some c3 =>
      simp only [get_client, Except.ok.injEq] at h ⊢
      simp [h]
    | none =>
      by_cases h1 : env.refresh_token = ""
      · by_cases h2 : env.mail_address ≠ "" ∧ env.password ≠ ""
        · simp_all [get_client]
        · simp_all [get_client]
      · simp_all [get_client]

/-- Witness for C6 at concrete environments: cached reuse, the
mail/password path, and the no-credential failure. -/
theorem C6_credential_resolution_witness :
    (get_client ⟨"", "m", "p"⟩ (some (Client.fromToken "t")) =
      (Except.ok (Client.fromToken "t"), some (Client.fromToken "t"))) ∧
    (get_client ⟨"", "m", "p"⟩ none =
      (Except.ok (Client.fromMail "m" "p"),
       some (Client.fromMail "m" "p"))) ∧
    (get_client ⟨"", "", "p"⟩ none =
      (Except.error (Err.configError authErrorMessage), none)) :=
  ⟨(C6_credential_resolution ⟨"", "m", "p"⟩ none
      (Client.fromToken "t")).1,
   (C6_credential_resolution ⟨"", "m", "p"⟩ none
      (Client.fromToken "t")).2.2.1 rfl (by decide) (by decide),
   (C6_credential_resolution ⟨"", "", "p"⟩ none
      (Client.fromToken "t")).2.2.2.1 rfl (Or.inl rfl)⟩

/-- The status carried by an envelope (`none` for a success envelope). -/
def Output.statusOf : Output → Option String
  | .success _ _ => none
  | .failure _ st => some st

/-- C2 counterexample: the envelope status is the constant `"error"` for
every failure kind — an upstream HTTP 500 does not produce status
`"http_error"`, and a missing credential does not produce status
`"id_token_error"`. -/
theorem C2_counterexample :
    ((get_daily_quotes ⟨"tok", "", ""⟩ none
        (.error (Err.httpError 500 "500 Server Error: Internal Server Error"))
        "72030" "20230101" "20230131" 10 0).1.statusOf = some "error") ∧
    ((get_daily_quotes ⟨"tok", "", ""⟩ none
        (.error (Err.httpError 500 "500 Server Error: Internal Server Error"))
        "72030" "20230101" "20230131" 10 0).1.statusOf ≠
      some "http_error") ∧
    ((search_company ⟨"", "", ""⟩ none (.ok []) "x" 10 0).1.statusOf =
      some "error") ∧
    ((search_company ⟨"", "", ""⟩ none (.ok []) "x" 10 0).1.statusOf ≠
      some "id_token_error") := by decide

/-- C2 amended: every failure envelope is `{"error": <message>, "status":
"error"}` — the status is the constant `"error"`, not a per-kind value —
with no success key present; and with no credential configured an operation
returns the configuration-error envelope without attempting any upstream
call (the attempted-call component is `none`). -/
theorem C2_error_envelope_status
    (env env2 : Env) (cache : Option Client) (c : Client)
    (hc : (get_client env cache).1 = Except.ok c)
    (h2 : env2.refresh_token = "" ∧
      (env2.mail_address = "" ∨ env2.password = ""))
    (e : Err) (code fd td query : String) (limit start : Int)
    (listed : Except Err DF) :
    ((get_daily_quotes env cache (.error e) code fd td limit start).1 =
       Output.failure e.message "error") ∧
    ((get_daily_quotes env cache (.error e) code fd td limit
        start).1.toJson.topKeys = ["error", "status"]) ∧
    ((search_company env2 none listed query limit start).1 =
       Output.failure authErrorMessage "error") ∧
    ((search_company env2 none listed query limit start).2.2 = none) := by
  rcases hE : get_client env cache with ⟨r, cache2⟩
  have hr : r = Except.ok c := by rw [hE] at hc; exact hc
  subst hr
  have hfail : get_client env2 none =
      (Except.error (Err.configError authErrorMessage), none) := by
    rcases h2.2 with hmp | hmp <;> simp [get_client, h2.1, hmp]
  refine ⟨?_, ?_, ?_, ?_⟩
  · simp [get_daily_quotes, hE, errorResponse]
  · simp [get_daily_quotes, hE, errorResponse, Output.toJson, Json.topKeys]
  · simp [search_company, hfail, errorResponse, Err.message]
  · simp [search_company, hfail]

/-- Witness for C2's amended statement at a concrete HTTP-500 failure and a
concrete credential-free environment. -/
theorem C2_error_envelope_status_witness :
    ((get_daily_quotes ⟨"tok", "", ""⟩ none
        (.error (Err.httpError 500 "500 Server Error")) "72030" "20230101"
        "20230131" 10 0).1 =
      Output.failure "500 Server Error" "error") ∧
    ((search_company ⟨"", "", ""⟩ none (.ok []) "x" 10 0).2.2 = none) :=
  ⟨(C2_error_envelope_status ⟨"tok", "", ""⟩ ⟨"", "", ""⟩ none
      (Client.fromToken "tok") rfl ⟨rfl, Or.inl rfl⟩
      (.httpError 500 "500 Server Error") "72030" "20230101" "20230131"
      "x" 10 0 (.ok [])).1,
   (C2_error_envelope_status ⟨"tok", "", ""⟩ ⟨"", "", ""⟩ none
      (Client.fromToken "tok") rfl ⟨rfl, Or.inl rfl⟩
      (.httpError 500 "500 Server Error") "72030" "20230101" "20230131"
      "x" 10 0 (.ok [])).2.2.2⟩

/-- C5: the per-cell conversion emits a temporal cell as its ISO-8601
string, a missing / not-a-number cell as JSON null (never the string
`"NaN"`), and passes every other scalar through unchanged; each converted
cell appears in the converted record under its field name. -/
theorem C5_cell_conversion (iso s : String) (n : Int) (b : Bool)
    (r : Record) (name : String) (cell : Cell)
    (hmem : (name, cell) ∈ r) :
    (convertCell (Cell.timestamp iso) = JsonVal.str iso) ∧
    (convertCell Cell.na = JsonVal.null) ∧
    (convertCell Cell.na ≠ JsonVal.str "NaN") ∧
    (convertCell (Cell.str s) = JsonVal.str s) ∧
    (convertCell (Cell.int n) = JsonVal.num n) ∧
    (convertCell (Cell.bool b) = JsonVal.bool b) ∧
    ((name, convertCell cell) ∈ recordFields r) := by
  refine ⟨rfl, rfl, by simp [convertCell], rfl, rfl, rfl, ?_⟩
  exact List.mem_map_of_mem (fun kv => (kv.1, convertCell kv.2)) hmem

/-- Witness for C5 at a concrete record containing a temporal cell. -/
theorem C5_cell_conversion_witness :
    ("Date", convertCell (Cell.timestamp "2023-10-01T00:00:00")) ∈
      recordFields [("Date", Cell.timestamp "2023-10-01T00:00:00"),
                    ("Close", Cell.na)] :=
  (C5_cell_conversion "2023-10-01T00:00:00" "" 0 false
    [("Date", Cell.timestamp "2023-10-01T00:00:00"),
     ("Close", Cell.na)] "Date" (Cell.timestamp "2023-10-01T00:00:00")
    (by decide)).2.2.2.2.2.2

/-- C4: every record of a successful `get_financial_statements` envelope
contains no field whose value is the empty string, while null and
numeric-zero fields survive the drop; the other four query kinds apply no
such drop — their success records are exactly the converted rows, and the
conversion itself preserves every field name. -/
theorem C4_statements_empty_string_drop
    (env : Env) (cache : Option Client) (c : Client)
    (hc : (get_client env cache).1 = Except.ok c)
    (df : DF) (code fd td pk sec : String) (limit start : Int)
    (key : String) (recs : List JRecord)
    (hout : (get_financial_statements env cache (.ok df) code limit
      start).1 = Output.success key recs)
    (fields : JRecord) (kv : String × JsonVal)
    (hkv : kv ∈ fields)
    (hval : kv.2 = JsonVal.null ∨ kv.2 = JsonVal.num 0) :
    (∀ r ∈ recs, ∀ kv2 ∈ r, kv2.2 ≠ JsonVal.str "") ∧
    (kv ∈ dropEmptyStrFields fields) ∧
    ((get_daily_quotes env cache (.ok df) code fd td limit start).1 =
       Output.success "daily_quotes"
         ((paginate df start limit).map recordFields)) ∧
    ((get_topix_prices env cache (.ok df) fd td pk limit start).1 =
       Output.success "topix"
         ((paginate df start limit).map recordFields)) ∧
    ((get_trades_spec env cache (.ok df) sec fd td pk limit start).1 =
       Output.success "trades_spec"
         ((paginate df start limit).map recordFields)) ∧
    (∀ r : Record, (recordFields r).map Prod.fst = r.map Prod.fst) := by
  rcases hE : get_client env cache with ⟨r, cache2⟩
  have hr : r = Except.ok c := by rw [hE] at hc; exact hc
  subst hr
  refine ⟨?_, ?_, ?_, ?_, ?_, ?_⟩
  · simp only [get_financial_statements, hE, Output.success.injEq] at hout
    intro r hrmem kv2 hkv2
    rw [← hout.2] at hrmem
    rcases List.mem_map.mp hrmem with ⟨r0, _, hr0⟩
    rw [← hr0] at hkv2
    exact of_decide_eq_true (List.mem_filter.mp hkv2).2
  · exact List.mem_filter.mpr ⟨hkv, by rcases hval with h | h <;> simp [h]⟩
  · simp only [get_daily_quotes, hE, convert_df_to_json]
  · simp only [get_topix_prices, hE, convert_df_to_json]
  · simp only [get_trades_spec, hE, convert_df_to_json]
  · intro r
    simp [recordFields]

/-- Witness for C4 at a concrete statements table holding an empty-string
field, a null field and a zero field. -/
theorem C4_statements_empty_string_drop_witness :
    (("Code", JsonVal.str "72030") : String × JsonVal).2 ≠
      JsonVal.str "" ∧
    ("Missing", JsonVal.null) ∈
      dropEmptyStrFields [("Missing", JsonVal.null),
                          ("Blank", JsonVal.str "")] :=
  have h := C4_statements_empty_string_drop ⟨"tok", "", ""⟩ none
    (Client.fromToken "tok") rfl
    [[("Code", Cell.str "72030"), ("Blank", Cell.str ""),
      ("Missing", Cell.na), ("Zero", Cell.int 0)]]
    "72030" "20230101" "20230131" "" "" 10 0 "statements"
    [dropEmptyStrFields (recordFields
      [("Code", Cell.str "72030"), ("Blank", Cell.str ""),
       ("Missing", Cell.na), ("Zero", Cell.int 0)])]
    (by decide)
    [("Missing", JsonVal.null), ("Blank", JsonVal.str "")]
    ("Missing", JsonVal.null) (by decide) (Or.inl rfl)
  ⟨h.1 (dropEmptyStrFields (recordFields
      [("Code", Cell.str "72030"), ("Blank", Cell.str ""),
       ("Missing", Cell.na), ("Zero", Cell.int 0)])) (by decide)
     ("Code", JsonVal.str "72030") (by decide),
   h.2.1⟩

/-- The envelope contract of the gateway boundary: the result is either the
`{"error", "status"}` failure object or a single-key success object for the
operation's key; the failure form carries exactly the keys `error` and
`status` (no records), the success form carries exactly the operation's key
(no error), and failure is recognized precisely by the presence of the
`error` key. -/
def envelopeOk (out : Output) (key : String) : Prop :=
  ((∃ msg, out = Output.failure msg "error") ∨
   (∃ recs, out = Output.success key recs)) ∧
  (∀ msg st, out = Output.failure msg st →
    out.toJson.topKeys = ["error", "status"]) ∧
  (∀ k2 recs, out = Output.success k2 recs → out.toJson.topKeys = [k2]) ∧
  ((∃ msg st, out = Output.failure msg st) ↔ "error" ∈ out.toJson.topKeys)

theorem envelopeOk_failure (e : Err) (key : String)
    (hkey : key ≠ "error") : envelopeOk (errorResponse e) key := by
  refine ⟨Or.inl ⟨e.message, rfl⟩, ?_, ?_, ?_⟩
  · intro msg st _
    simp [errorResponse, Output.toJson, Json.topKeys]
  · intro k2 recs h
    simp [errorResponse] at h
  · simp [errorResponse, Output.toJson, Json.topKeys]

theorem envelopeOk_success (key : String) (recs : List JRecord)
    (hkey : key ≠ "error") : envelopeOk (Output.success key recs) key := by
  refine ⟨Or.inr ⟨recs, rfl⟩, ?_, ?_, ?_⟩
  · intro msg st h
    simp at h
  · intro k2 recs2 h
    simp only [Output.success.injEq] at h
    simp [← h.1, Output.toJson, Json.topKeys]
  · constructor
    · rintro ⟨msg, st, h⟩
      simp at h
    · intro h
      simp [Output.toJson, Json.topKeys] at h
      exact absurd h.symm hkey

/-- C7: for every operation and every input — any credential-resolution
outcome, any upstream outcome, any arguments — the returned envelope is
either the `{"error": <message>, "status": "error"}` failure object or a
single-key success object; records are never returned alongside an error,
the result is always a well-formed JSON object, and failure is
distinguished from success exactly by the presence of the `error` key. -/
theorem C7_gateway_envelope
    (env : Env) (cache : Option Client)
    (listed quotes stmts topix trades : Except Err DF)
    (query code fd td pk sec : String) (limit start : Int) :
    envelopeOk (search_company env cache listed query limit start).1
      "info" ∧
    envelopeOk (get_daily_quotes env cache quotes code fd td limit
      start).1 "daily_quotes" ∧
    envelopeOk (get_financial_statements env cache stmts code limit
      start).1 "statements" ∧
    envelopeOk (get_topix_prices env cache topix fd td pk limit start).1
      "topix" ∧
    envelopeOk (get_trades_spec env cache trades sec fd td pk limit
      start).1 "trades_spec" := by
  rcases hE : get_client env cache with ⟨r, cache2⟩
  refine ⟨?_, ?_, ?_, ?_, ?_⟩
  · simp only [search_company, hE]
    cases r with
    | error e => exact envelopeOk_failure e "info" (by decide)
    | ok c =>
      cases listed with
      | error e => exact envelopeOk_failure e "info" (by decide)
      | ok df =>
        cases hq : parseRegex query with
        | none => exact envelopeOk_failure _ "info" (by decide)
        | some rx =>
          exact envelopeOk_success "info" _ (by decide)
  · simp only [get_daily_quotes, hE]
    cases r with
    | error e => exact envelopeOk_failure e "daily_quotes" (by decide)
    | ok c =>
      cases quotes with
      | error e => exact envelopeOk_failure e "daily_quotes" (by decide)
      | ok df => exact envelopeOk_success "daily_quotes" _ (by decide)
  · simp only [get_financial_statements, hE]
    cases r with
    | error e => exact envelopeOk_failure e "statements" (by decide)
    | ok c =>
      cases stmts with
      | error e => exact envelopeOk_failure e "statements" (by decide)
      | ok df => exact envelopeOk_success "statements" _ (by decide)
  · simp only [get_topix_prices, hE]
    cases r with
    | error e => exact envelopeOk_failure e "topix" (by decide)
    | ok c =>
      cases topix with
      | error e => exact envelopeOk_failure e "topix" (by decide)
      | ok df => exact envelopeOk_success "topix" _ (by decide)
  · simp only [get_trades_spec, hE]
    cases r with
    | error e => exact envelopeOk_failure e "trades_spec" (by decide)
    | ok c =>
      cases trades with
      | error e => exact envelopeOk_failure e "trades_spec" (by decide)
      | ok df => exact envelopeOk_success "trades_spec" _ (by decide)

/-- Witness for C7 at a concrete failing upstream call. -/
theorem C7_gateway_envelope_witness :
    envelopeOk (search_company ⟨"tok", "", ""⟩ none
      (.error (Err.timeoutError "timed out")) "x" 10 0).1 "info" :=
  (C7_gateway_envelope ⟨"tok", "", ""⟩ none
    (.error (Err.timeoutError "timed out")) (.ok []) (.ok []) (.ok [])
    (.ok []) "x" "72030" "20230101" "20230131" "" "" 10 0).1

/-- C8 counterexample: a non-empty `pagination_key` is NOT forwarded
upstream — `get_trades_spec` with only `pagination_key` set performs the
upstream call with an empty kwargs dict, and `get_topix_prices` forwards
exactly the two date bounds whatever `pagination_key` is. -/
theorem C8_counterexample :
    ((get_trades_spec ⟨"tok", "", ""⟩ none (.ok []) "" "" ""
        "key1234" 10 0).2.2 = some []) ∧
    ((get_topix_prices ⟨"tok", "", ""⟩ none (.ok []) "20231001" "20231031"
        "key1234" 10 0).2.2 =
      some [("from_yyyymmdd", "20231001"),
            ("to_yyyymmdd", "20231031")]) := by decide

/-- C8 amended: for TradesSpec each of `section`, `from_yyyymmdd`,
`to_yyyymmdd` is forwarded as its own upstream query parameter exactly when
non-empty and omitted entirely when empty, and no other parameter is ever
forwarded — in particular `pagination_key`, even when non-empty, is never
forwarded; for TopixPrices the upstream call always carries exactly the two
date bounds and never `pagination_key`. -/
theorem C8_optional_param_forwarding
    (env : Env) (cache : Option Client)
    (trades topix : Except Err DF)
    (sec fd td pk : String) (limit start : Int) :
    (∀ kv ∈ tradesSpecKwargs sec fd td, kv.1 ≠ "pagination_key") ∧
    (∀ kv ∈ tradesSpecKwargs sec fd td,
      kv.1 = "section" ∨ kv.1 = "from_yyyymmdd" ∨ kv.1 = "to_yyyymmdd") ∧
    (("section", sec) ∈ tradesSpecKwargs sec fd td ↔ sec ≠ "") ∧
    (("from_yyyymmdd", fd) ∈ tradesSpecKwargs sec fd td ↔ fd ≠ "") ∧
    (("to_yyyymmdd", td) ∈ tradesSpecKwargs sec fd td ↔ td ≠ "") ∧
    ((get_trades_spec env cache trades sec fd td pk limit start).2.2 =
       none ∨
     (get_trades_spec env cache trades sec fd td pk limit start).2.2 =
       some (tradesSpecKwargs sec fd td)) ∧
    ((get_topix_prices env cache topix fd td pk limit start).2.2 = none ∨
     (get_topix_prices env cache topix fd td pk limit start).2.2 =
       some [("from_yyyymmdd", fd), ("to_yyyymmdd", td)]) := by
  have hmem : ∀ kv ∈ tradesSpecKwargs sec fd td,
      kv = ("section", sec) ∨ kv = ("from_yyyymmdd", fd) ∨
      kv = ("to_yyyymmdd", td) := by
    intro kv hkv
    simp only [tradesSpecKwargs, List.mem_append] at hkv
    rcases hkv with (h | h) | h
    · by_cases hc : sec = ""
      · simp [hc] at h
      · simp [hc] at h
        exact Or.inl h
    · by_cases hc : fd = ""
      · simp [hc] at h
      · simp [hc] at h
        exact Or.inr (Or.inl h)
    · by_cases hc : td = ""
      · simp [hc] at h
      · simp [hc] at h
        exact Or.inr (Or.inr h)
  refine ⟨?_, ?_, ?_, ?_, ?_, ?_, ?_⟩
  · intro kv hkv
    rcases hmem kv hkv with h | h | h <;> subst h
    · exact (by decide : ("section" : String) ≠ "pagination_key")
    · exact (by decide : ("from_yyyymmdd" : String) ≠ "pagination_key")
    · exact (by decide : ("to_yyyymmdd" : String) ≠ "pagination_key")
  · intro kv hkv
    rcases hmem kv hkv with h | h | h <;> subst h
    · exact Or.inl rfl
    · exact Or.inr (Or.inl rfl)
    · exact Or.inr (Or.inr rfl)
  · by_cases h1 : sec = "" <;> by_cases h2 : fd = "" <;>
      by_cases h3 : td = "" <;>
      simp [tradesSpecKwargs, h1, h2, h3, Prod.ext_iff]
  · by_cases h1 : sec = "" <;> by_cases h2 : fd = "" <;>
      by_cases h3 : td = "" <;>
      simp [tradesSpecKwargs, h1, h2, h3, Prod.ext_iff]
  · by_cases h1 : sec = "" <;> by_cases h2 : fd = "" <;>
      by_cases h3 : td = "" <;>
      simp [tradesSpecKwargs, h1, h2, h3, Prod.ext_iff]
  · rcases hE : get_client env cache with ⟨r, cache2⟩
    cases r with
    | error e => exact Or.inl (by simp [get_trades_spec, hE])
    | ok c =>
      refine Or.inr ?_
      cases trades <;> simp [get_trades_spec, hE]
  · rcases hE : get_client env cache with ⟨r, cache2⟩
    cases r with
    | error e => exact Or.inl (by simp [get_topix_prices, hE])
    | ok c =>
      refine Or.inr ?_
      cases topix <;> simp [get_topix_prices, hE]

/-- Witness for C8 at concrete arguments with a non-empty section and an
empty date pair. -/
theorem C8_optional_param_forwarding_witness :
    (("section", "TSEPrime") ∈ tradesSpecKwargs "TSEPrime" "" "" ↔
      ("TSEPrime" : String) ≠ "") ∧
    ((get_trades_spec ⟨"tok", "", ""⟩ none (.ok []) "TSEPrime" "" ""
        "key1234" 10 0).2.2 = none ∨
     (get_trades_spec ⟨"tok", "", ""⟩ none (.ok []) "TSEPrime" "" ""
        "key1234" 10 0).2.2 = some (tradesSpecKwargs "TSEPrime" "" "")) :=
  ⟨(C8_optional_param_forwarding ⟨"tok", "", ""⟩ none (.ok []) (.ok [])
      "TSEPrime" "" "" "key1234" 10 0).2.2.1,
   (C8_optional_param_forwarding ⟨"tok", "", ""⟩ none (.ok []) (.ok [])
      "TSEPrime" "" "" "key1234" 10 0).2.2.2.2.2.1⟩

/-! ### Matching a metacharacter-free pattern is substring containment -/

theorem matchPref_alt (s : List Char) : ∀ a b : Regex,
    matchPref (.alt a b) s = (matchPref a s || matchPref b s) := by
  induction s with
  | nil => intro a b; simp [matchPref, nullable]
  | cons c cs ih =>
    intro a b
    simp only [matchPref, deriv, nullable, ih]
    cases nullable a <;> cases nullable b <;>
      simp [Bool.or_assoc, Bool.or_comm, Bool.or_left_comm]

theorem matchPref_catFail (s : List Char) (b : Regex) :
    matchPref (.cat .fail b) s = false := by
  induction s with
  | nil => simp [matchPref, nullable]
  | cons c cs ih => simp [matchPref, nullable, deriv, ih]

theorem matchPref_catEps (s : List Char) (b : Regex) :
    matchPref (.cat .eps b) s = matchPref b s := by
  cases s with
  | nil => simp [matchPref, nullable]
  | cons c cs =>
    simp [matchPref, nullable, deriv, matchPref_alt, matchPref_catFail]

theorem matchPref_lit : ∀ cs s : List Char,
    matchPref (litRegex cs) s = lpre cs s := by
  intro cs
  induction cs with
  | nil =>
    intro s
    cases s <;> simp [litRegex, matchPref, nullable, lpre]
  | cons c cs ih =>
    intro s
    cases s with
    | nil => simp [litRegex, matchPref, nullable, lpre]
    | cons d ds =>
      have hlit : litRegex (c :: cs) = .cat (.ch c) (litRegex cs) := rfl
      rw [hlit]
      simp only [matchPref, nullable, deriv, Bool.false_and, Bool.false_or]
      by_cases hc : c.toLower = d.toLower
      · simp [hc, matchPref_catEps, ih, lpre]
      · simp [hc, matchPref_catFail, lpre]

theorem nullable_lit (cs : List Char) :
    nullable (litRegex cs) = cs.isEmpty := by
  cases cs <;> simp [litRegex, nullable]

theorem research_lit (cs : List Char) : ∀ s : List Char,
    research (litRegex cs) s = substrCI cs s := by
  intro s
  induction s with
  | nil => simp [research, substrCI, nullable_lit]
  | cons d ds ih => simp [research, substrCI, matchPref_lit, ih]

/-! ### Spec-side filter: case-insensitive substring over two fields -/

/-- The spec's field match: the cell under `name` is a string containing
`query` as a case-insensitive substring (missing cells never match). -/
def substrFieldMatch (query : String) (r : Record) (name : String) : Bool :=
  match r.lookup name with
  | some (.str s) => substrCI query.toList s.toList
  | _ => false

/-- The spec's row filter: `CompanyName` or `CompanyNameEnglish` contains
`query` as a case-insensitive substring (logical OR). -/
def substrRowMatch (query : String) (r : Record) : Bool :=
  substrFieldMatch query r "CompanyName" ||
  substrFieldMatch query r "CompanyNameEnglish"

theorem fieldMatches_lit (query : String) (r : Record) (name : String) :
    fieldMatches (litRegex query.toList) r name =
      substrFieldMatch query r name := by
  simp only [fieldMatches, substrFieldMatch]
  cases r.lookup name with
  | none => rfl
  | some cell => cases cell <;> simp [research_lit]

theorem rowMatches_lit (query : String) (r : Record) :
    rowMatches (litRegex query.toList) r = substrRowMatch query r := by
  simp only [rowMatches, substrRowMatch, fieldMatches_lit]

/-! ### Translating a metacharacter-free pattern gives the literal regex -/

theorem parseR_seq_plain : ∀ cs : List Char,
    (∀ c ∈ cs, plainChar c = true) → ∀ f, cs.length + 1 ≤ f →
    parseR .seq f cs = some (litRegex cs, []) := by
  intro cs
  induction cs with
  | nil =>
    intro _ f hf
    match f, hf with
    | Nat.succ f, _ => rfl
  | cons c rest ih =>
    intro h f hf
    match f, hf with
    | Nat.succ f, hf =>
      have hpc := h c (List.mem_cons_self c rest)
      simp only [plainChar, Bool.and_eq_true, Bool.not_eq_true',
        decide_eq_true_eq] at hpc
      obtain ⟨⟨⟨⟨hu, hp⟩, hrp⟩, hb⟩, hd⟩ := hpc
      have hrec := ih (fun x hx => h x (List.mem_cons_of_mem c hx)) f
        (by simp only [List.length_cons] at hf; omega)
      simp only [parseR]
      rw [if_neg (not_or.mpr ⟨hrp, hb⟩), if_neg (by simp [hu]),
        if_neg hp, if_neg hd]
      simp only [hrec]
      rfl

theorem parseR_top_plain (cs : List Char)
    (h : ∀ c ∈ cs, plainChar c = true) (f : Nat)
    (hf : cs.length + 1 ≤ f) :
    parseR .top (Nat.succ f) cs = some (litRegex cs, []) := by
  have hrec := parseR_seq_plain cs h f hf
  show (match parseR .seq f cs with
    | none => none
    | some (r, rest) =>
      match rest with
      | '|' :: rest2 =>
        match parseR .top f rest2 with
        | none => none
        | some (r2, rest3) => some (Regex.alt r r2, rest3)
      | _ => some (r, rest)) = some (litRegex cs, [])
  rw [hrec]

theorem parseRegex_plain (q : String)
    (h : ∀ c ∈ q.toList, plainChar c = true) :
    parseRegex q = some (litRegex q.toList) := by
  have hlen : q.toList.length + 1 ≤ 2 * q.length + 3 := by
    have he : q.toList.length = q.length := rfl
    omega
  rw [parseRegex]
  rw [show 2 * q.length + 4 = Nat.succ (2 * q.length + 3) from rfl]
  rw [parseR_top_plain q.toList h (2 * q.length + 3) hlen]

/-- A listing row neither of whose name fields contains `"a.c"` as a
literal substring, but both match the regex `a.c`. -/
def abcRecord : Record :=
  [("Code", Cell.str "99990"), ("CompanyName", Cell.str "abc"),
   ("CompanyNameEnglish", Cell.str "abc inc")]

/-- C3 counterexample: with query `"a.c"`, `search_company` keeps a record
whose `CompanyName` and `CompanyNameEnglish` do NOT contain `"a.c"` as a
case-insensitive substring — the filter is not literal substring
containment for every query string. -/
theorem C3_counterexample :
    ((search_company ⟨"tok", "", ""⟩ none (.ok [abcRecord]) "a.c"
        10 0).1 = Output.success "info" [recordFields abcRecord]) ∧
    (substrRowMatch "a.c" abcRecord = false) := by decide

/-- C3 amended: for every query free of regex metacharacters (every
character literal to the pattern translator), `search_company` keeps
exactly the records whose `CompanyName` or `CompanyNameEnglish` contains
the query as a case-insensitive substring (logical OR), drops the others
before pagination; in particular `"toyota"` matches a record whose
`CompanyNameEnglish` is `"Toyota Motor Corp"` while its `CompanyName` does
not match.  (For queries containing metacharacters the filter is regex
matching instead — see the counterexample.) -/
theorem C3_substring_filter
    (env : Env) (cache : Option Client) (c : Client)
    (hc : (get_client env cache).1 = Except.ok c)
    (df : DF) (query : String)
    (hplain : ∀ ch ∈ query.toList, plainChar ch = true)
    (limit start : Int) :
    ((search_company env cache (.ok df) query limit start).1 =
      Output.success "info"
        ((paginate (df.filter (substrRowMatch query)) start limit).map
          recordFields)) ∧
    (substrRowMatch "toyota" toyotaRecord = true) ∧
    (substrFieldMatch "toyota" toyotaRecord "CompanyName" = false) ∧
    (substrFieldMatch "toyota" toyotaRecord "CompanyNameEnglish" =
      true) := by
  rcases hE : get_client env cache with ⟨r, cache2⟩
  have hr : r = Except.ok c := by rw [hE] at hc; exact hc
  subst hr
  refine ⟨?_, by decide, by decide, by decide⟩
  have hfilter : df.filter (rowMatches (litRegex query.toList)) =
      df.filter (substrRowMatch query) := by
    apply List.filter_congr
    intro r _
    rw [rowMatches_lit]
  simp only [search_company, hE, parseRegex_plain query hplain,
    convert_df_to_json, hfilter]

/-- Witness for C3's amended statement: the metacharacter-free query
`"toyota"` against the sample listing keeps exactly the Toyota record. -/
theorem C3_substring_filter_witness :
    (search_company ⟨"tok", "", ""⟩ none (.ok sampleListing) "toyota"
        10 0).1 =
      Output.success "info"
        ((paginate (sampleListing.filter (substrRowMatch "toyota")) 0
          10).map recordFields) :=
  (C3_substring_filter ⟨"tok", "", ""⟩ none (Client.fromToken "tok") rfl
    sampleListing "toyota" (by decide) 10 0).1

/-- C9: `search_company` interprets the query as a regular-expression
pattern, not a literal substring — query `"a.c"` keeps a record although
neither name field contains `"a.c"` as a case-insensitive substring — and
an invalid pattern (unbalanced `"("`) yields the `{error, status}` envelope
rather than a match result. -/
theorem C9_regex_interpretation :
    ((search_company ⟨"tok", "", ""⟩ none (.ok [abcRecord]) "a.c"
        10 0).1 = Output.success "info" [recordFields abcRecord]) ∧
    (substrFieldMatch "a.c" abcRecord "CompanyName" = false) ∧
    (substrFieldMatch "a.c" abcRecord "CompanyNameEnglish" = false) ∧
    (parseRegex "(" = none) ∧
    ((search_company ⟨"tok", "", ""⟩ none (.ok [abcRecord]) "("
        10 0).1 =
      Output.failure "missing ), unterminated subpattern" "error") := by
  decide

/-- C10: a negative `start_position` does not raise and does not produce an
error envelope — every operation still returns its success envelope, whose
records are the pagination window at that start — and the window follows
Python negative-index semantics: with `start_position = -k` (for
`0 < limit < k ≤ total`) the slice is the `limit` records beginning `k`
from the end of the sequence, not the empty sequence. -/
theorem C10_negative_start_position
    (env : Env) (cache : Option Client) (c : Client)
    (hc : (get_client env cache).1 = Except.ok c)
    (df : DF) (query code fd td pk sec : String) (rx : Regex)
    (hq : parseRegex query = some rx)
    (k limit : Int) (hk : 0 < k) (hkn : k ≤ (df.length : Int))
    (hl : 0 < limit) (hlk : limit < k) :
    (∀ start : Int,
      ((search_company env cache (.ok df) query limit start).1 =
        Output.success "info"
          ((paginate (df.filter (rowMatches rx)) start limit).map
            recordFields)) ∧
      ((get_daily_quotes env cache (.ok df) code fd td limit start).1 =
        Output.success "daily_quotes"
          ((paginate df start limit).map recordFields)) ∧
      ((get_financial_statements env cache (.ok df) code limit start).1 =
        Output.success "statements"
          (((paginate df start limit).map recordFields).map
            dropEmptyStrFields)) ∧
      ((get_topix_prices env cache (.ok df) fd td pk limit start).1 =
        Output.success "topix"
          ((paginate df start limit).map recordFields)) ∧
      ((get_trades_spec env cache (.ok df) sec fd td pk limit start).1 =
        Output.success "trades_spec"
          ((paginate df start limit).map recordFields))) ∧
    (paginate df (-k) limit =
      (df.drop ((df.length : Int) - k).toNat).take limit.toNat) ∧
    (paginate df (-k) limit ≠ []) := by
  rcases hE : get_client env cache with ⟨r, cache2⟩
  have hr : r = Except.ok c := by rw [hE] at hc; exact hc
  subst hr
  have hslice : paginate df (-k) limit =
      (df.drop ((df.length : Int) - k).toNat).take limit.toNat := by
    simp only [paginate, pySlice]
    have h1 : (-k) < 0 := by omega
    have h2 : (-k) + limit < 0 := by omega
    simp only [h1, h2, if_true]
    rw [List.drop_take]
    have e1 : (max ((df.length : Int) + -k) 0).toNat =
        ((df.length : Int) - k).toNat := by omega
    have e2 : (max ((df.length : Int) + (-k + limit)) 0).toNat -
        (max ((df.length : Int) + -k) 0).toNat = limit.toNat := by omega
    rw [e2, e1]
  refine ⟨?_, hslice, ?_⟩
  · intro start
    refine ⟨?_, ?_, ?_, ?_, ?_⟩
    · simp only [search_company, hE, hq, convert_df_to_json]
    · simp only [get_daily_quotes, hE, convert_df_to_json]
    · simp only [get_financial_statements, hE]
    · simp only [get_topix_prices, hE, convert_df_to_json]
    · simp only [get_trades_spec, hE, convert_df_to_json]
  · rw [hslice]
    apply List.length_pos.mp
    simp only [List.length_take, List.length_drop]
    omega

/-- A four-row sample quotes table. -/
def quotesDF : DF :=
  [[("Close", Cell.int 100)], [("Close", Cell.int 101)],
   [("Close", Cell.int 102)], [("Close", Cell.int 103)]]

/-- Witness for C10: `start_position = -3`, `limit = 1` on a four-row table
selects one record counted from the end, and is non-empty. -/
theorem C10_negative_start_position_witness :
    (paginate quotesDF (-3) 1 =
      (quotesDF.drop ((quotesDF.length : Int) - 3).toNat).take
        (1 : Int).toNat) ∧
    (paginate quotesDF (-3) 1 ≠ []) :=
  ⟨(C10_negative_start_position ⟨"tok", "", ""⟩ none
      (Client.fromToken "tok") rfl quotesDF "a" "72030" "20230101"
      "20230131" "" "" (litRegex "a".toList) (by decide) 3 1 (by decide)
      (by decide) (by decide) (by decide)).2.1,
   (C10_negative_start_position ⟨"tok", "", ""⟩ none
      (Client.fromToken "tok") rfl quotesDF "a" "72030" "20230101"
      "20230131" "" "" (litRegex "a".toList) (by decide) 3 1 (by decide)
      (by decide) (by decide) (by decide)).2.2⟩

end JQuants
